import Mathlib

/-!
Verification development for `src/components/TeacherRankingSection.tsx`.

The component's logic is embedded shallowly:

* JavaScript strings are modelled as their character sequences (`Str`, a list
  of characters), so that every operation the component uses — case mapping,
  lexicographic `<`, `startsWith`, `endsWith`, equality — is executable;
  `str` turns a Lean string literal into this representation;
* the `Student` interface becomes a structure (percentages as `Int`: the code
  only compares them with `<`, `>`, `>=`, `<=`);
* the raw rows returned by the store (`data.map((s: any) => ...)`) may lack
  the `latest_percentage` field, so `RawStudent` carries it as `Option Int`;
* JavaScript truthiness (`x || d`, `if (filters.nameStartsWith)`) is made
  explicit via `jsOrInt`, `jsOrStr`, `jsOptOrInt` and `truthyStr`
  (for numbers `0` is falsy, for strings `""` is falsy, and `undefined` /
  `null` are falsy, modelled as `none`);
* `Array.prototype.sort` with a consistent comparator is a stable sort, and a
  stable sort consistent with a total preorder has a unique result, so it is
  modelled by `List.insertionSort` (stable) over the relation
  `comparator a b ≤ 0`;
* `loadStudents` becomes a transition on the component state, parameterised by
  the outcome of the awaited query, returning the new state together with the
  number of error toasts emitted during the run.
-/

/-- A JavaScript string, as its sequence of characters. -/
abbrev Str := List Char

/-- The character sequence of a Lean string literal. -/
def str (s : String) : Str := s.data

/-- `String.prototype.toUpperCase` (character-wise case mapping). -/
def strToUpper (s : Str) : Str := s.map Char.toUpper

/-- `String.prototype.toLowerCase` (character-wise case mapping). -/
def strToLower (s : Str) : Str := s.map Char.toLower

/-- JavaScript `<` on strings: lexicographic comparison of the character
sequences. -/
def strLtb : Str → Str → Bool
  | [], [] => false
  | [], _ :: _ => true
  | _ :: _, [] => false
  | a :: as, b :: bs =>
    if a < b then true
    else if b < a then false
    else strLtb as bs

/-- `String.prototype.startsWith`. -/
def strStartsWith (s p : Str) : Bool := List.isPrefixOf p s

/-- `String.prototype.endsWith`. -/
def strEndsWith (s p : Str) : Bool := List.isSuffixOf p s

/-- JavaScript `x || d` on a number: `0` is falsy. -/
def jsOrInt (x d : Int) : Int := if x = 0 then d else x

/-- JavaScript `s || d` on a string: the empty string is falsy. -/
def jsOrStr (s d : Str) : Str := if s = [] then d else s

/-- JavaScript `x || d` where `x` may also be `undefined`/`null` (`none`). -/
def jsOptOrInt (x : Option Int) (d : Int) : Int :=
  match x with
  | none => d
  | some v => jsOrInt v d

/-- JavaScript truthiness of a possibly-absent string:
`undefined`, `null` and the empty string are falsy. -/
def truthyStr (x : Option Str) : Bool :=
  match x with
  | none => false
  | some s => s != []

/-- JavaScript `<` on numbers, as a Bool. -/
def intLtb (a b : Int) : Bool := decide (a < b)

/-- The `Student` interface (source lines 8-16).  The `section` field is
named `section_` because `section` is a Lean keyword. -/
structure Student where
  id : Str
  admission_id : Str
  name : Str
  class_section : Str
  class_name : Str
  section_ : Str
  latest_percentage : Int
deriving DecidableEq

/-- A raw row as returned by the store: `latest_percentage` may be absent or
null (`none`).  The other fields are taken as in the interface. -/
structure RawStudent where
  id : Str
  admission_id : Str
  name : Str
  class_section : Str
  class_name : Str
  section_ : Str
  latest_percentage : Option Int
deriving DecidableEq

/-- `{...s, latest_percentage: s.latest_percentage || 0}` (source lines
67-70). -/
def coerceStudent (s : RawStudent) : Student :=
  { id := s.id
    admission_id := s.admission_id
    name := s.name
    class_section := s.class_section
    class_name := s.class_name
    section_ := s.section_
    latest_percentage := jsOptOrInt s.latest_percentage 0 }

/-- Sort direction (`'asc' | 'desc'`, source line 30). -/
inductive SortOrder where
  | asc
  | desc
deriving DecidableEq

/-- `sortConfig` (source lines 30-33).  The source field `by` is a Lean
keyword, so it is named `sortBy`. -/
structure SortConfig where
  sortBy : Str
  order : SortOrder
deriving DecidableEq

/-- The `filters` state (source lines 34-40): every field optional, `none`
models `undefined`. -/
structure Filters where
  percentageMin : Option Int := none
  percentageMax : Option Int := none
  nameStartsWith : Option Str := none
  nameEndsWith : Option Str := none
  classSection : Option Str := none
deriving DecidableEq

/-- The comparator tail (source lines 128-130):
`if (aVal < bVal) return asc ? -1 : 1; if (aVal > bVal) return asc ? 1 : -1;
return 0`, parameterised by the `<` of the compared values. -/
def cmpVals {α : Type} (lt : α → α → Bool) (a b : α) (ord : SortOrder) : Int :=
  if lt a b then (match ord with | .asc => -1 | .desc => 1)
  else if lt b a then (match ord with | .asc => 1 | .desc => -1)
  else 0

/-- The comparator passed to `filtered.sort` (source lines 107-131).
`a.name?.toLowerCase() || ''` becomes `jsOrStr (strToLower a.name) []` (the
field is a plain string, so optional chaining is mere access) and
`a.latest_percentage || 0` becomes `jsOrInt a.latest_percentage 0`.  The
`switch` has four branches; the `latest_percentage` branch and the `default`
branch have identical bodies, as in the source. -/
def studentCompare (cfg : SortConfig) (a b : Student) : Int :=
  if cfg.sortBy = str "name" then
    cmpVals strLtb (jsOrStr (strToLower a.name) []) (jsOrStr (strToLower b.name) []) cfg.order
  else if cfg.sortBy = str "admission_id" then
    cmpVals strLtb (jsOrStr (strToLower a.admission_id) []) (jsOrStr (strToLower b.admission_id) [])
      cfg.order
  else if cfg.sortBy = str "latest_percentage" then
    cmpVals intLtb (jsOrInt a.latest_percentage 0) (jsOrInt b.latest_percentage 0) cfg.order
  else
    cmpVals intLtb (jsOrInt a.latest_percentage 0) (jsOrInt b.latest_percentage 0) cfg.order

/-- The order in which `Array.prototype.sort` arranges elements under the
comparator: `a` may come before `b` iff the comparator is non-positive. -/
def sortRel (cfg : SortConfig) (a b : Student) : Prop :=
  studentCompare cfg a b ≤ 0

instance (cfg : SortConfig) : DecidableRel (sortRel cfg) :=
  fun _ _ => Int.decLe _ _

/-- The filtering stage of `applyFiltersAndSort` (source lines 81-105): the
five guarded `filtered.filter` passes, in source order. -/
def filterStudents (students : List Student) (filters : Filters) : List Student :=
  let filtered := students
  let filtered := if truthyStr filters.classSection then
      filtered.filter (fun s => s.class_section == filters.classSection.getD [])
    else filtered
  let filtered := match filters.percentageMin with
    | some m => filtered.filter (fun s => decide (m ≤ s.latest_percentage))
    | none => filtered
  let filtered := match filters.percentageMax with
    | some m => filtered.filter (fun s => decide (s.latest_percentage ≤ m))
    | none => filtered
  let filtered := if truthyStr filters.nameStartsWith then
      filtered.filter (fun s => strStartsWith (strToUpper s.name) (filters.nameStartsWith.getD []))
    else filtered
  let filtered := if truthyStr filters.nameEndsWith then
      filtered.filter (fun s => strEndsWith (strToUpper s.name) (filters.nameEndsWith.getD []))
    else filtered
  filtered

/-- `applyFiltersAndSort` (source lines 80-134): the filter passes, then the
stable sort under the comparator.  The returned list is the value passed to
`setFilteredStudents`, i.e. the derived view. -/
def applyFiltersAndSort (students : List Student) (filters : Filters)
    (cfg : SortConfig) : List Student :=
  List.insertionSort (sortRel cfg) (filterStudents students filters)

/-- The component state touched by `loadStudents`. -/
structure ComponentState where
  students : List Student
  loading : Bool
deriving DecidableEq

/-- Outcome of one run of `loadStudents`: the resulting state and the number
of error toasts emitted during the run. -/
structure LoadResult where
  state : ComponentState
  errorToasts : Nat
deriving DecidableEq

/-- `loadStudents` (source lines 50-78).  The `fetch` argument models the
outcome of the awaited supabase query: `.error e` for a query error (re-thrown
at line 64) or a thrown exception, `.ok none` for a null `data` without an
error, `.ok (some rows)` for returned rows.  In every non-skipped path the
`finally` block sets `loading` to `false`; the `catch` block emits exactly one
error toast.  When the class-section list is empty the function returns before
fetching, after `setLoading(false)`. -/
def loadStudents (prior : ComponentState) (teacherClassSections : List Str)
    (fetch : Except String (Option (List RawStudent))) : LoadResult :=
  if teacherClassSections.length = 0 then
    ⟨⟨prior.students, false⟩, 0⟩
  else
    match fetch with
    | .error _ => ⟨⟨prior.students, false⟩, 1⟩
    | .ok none => ⟨⟨prior.students, false⟩, 0⟩
    | .ok (some data) => ⟨⟨data.map coerceStudent, false⟩, 0⟩

/-- `getPerformanceColor` (source lines 154-160). -/
def getPerformanceColor (percentage : Int) : String :=
  if percentage ≥ 90 then "text-green-600 bg-green-50"
  else if percentage ≥ 75 then "text-blue-600 bg-blue-50"
  else if percentage ≥ 60 then "text-yellow-600 bg-yellow-50"
  else if percentage ≥ 45 then "text-orange-600 bg-orange-50"
  else "text-red-600 bg-red-50"

/-- Modelled from the spec (section 4.3): the performance-tier names
"excellent" / "good" / "fair" / "weak" / "poor" with lower bounds 90 / 75 /
60 / 45, inclusive. -/
def performanceTier (percentage : Int) : String :=
  if percentage ≥ 90 then "excellent"
  else if percentage ≥ 75 then "good"
  else if percentage ≥ 60 then "fair"
  else if percentage ≥ 45 then "weak"
  else "poor"

/-- The colour classes the source uses, for each tier name of the spec. -/
def tierColorClass (tier : String) : String :=
  if tier = "excellent" then "text-green-600 bg-green-50"
  else if tier = "good" then "text-blue-600 bg-blue-50"
  else if tier = "fair" then "text-yellow-600 bg-yellow-50"
  else if tier = "weak" then "text-orange-600 bg-orange-50"
  else "text-red-600 bg-red-50"

/-- The direction-free comparator of the active sort key: name and admission
identifier lexicographically on the lower-cased string (missing value the
empty string), percentage numerically (missing value 0). -/
def keyCompare (cfg : SortConfig) (a b : Student) : Int :=
  studentCompare { cfg with order := .asc } a b

/-- The three students of the spec's scenario (section 8), concretised. -/
def aliceStudent : Student :=
  ⟨str "s1", str "adm1", str "Alice", str "10-A", str "10", str "A", 92⟩

def bobStudent : Student :=
  ⟨str "s2", str "adm2", str "bob", str "10-A", str "10", str "A", 60⟩

def caraStudent : Student :=
  ⟨str "s3", str "adm3", str "Cara", str "10-B", str "10", str "B", 92⟩

/-- A raw row whose `latest_percentage` is absent. -/
def zeroRaw : RawStudent :=
  ⟨str "s4", str "adm4", str "Zed", str "10-A", str "10", str "A", none⟩

/-- A loaded student with percentage 0. -/
def zedStudent : Student :=
  ⟨str "s4", str "adm4", str "Zed", str "10-A", str "10", str "A", 0⟩

example : jsOrInt 0 5 = 5 := by decide
example : truthyStr (some []) = false := by decide
example : applyFiltersAndSort [aliceStudent, bobStudent, caraStudent]
    { nameStartsWith := some (str "AL") } ⟨str "latest_percentage", .desc⟩
    = [aliceStudent] := by decide
example : applyFiltersAndSort [bobStudent, aliceStudent, caraStudent] {}
    ⟨str "latest_percentage", .desc⟩ = [aliceStudent, caraStudent, bobStudent] := by decide
example : applyFiltersAndSort [bobStudent, aliceStudent, caraStudent] {}
    ⟨str "name", .asc⟩ = [aliceStudent, bobStudent, caraStudent] := by decide

/-- Properties making a Bool comparator a strict linear order; they are what
the sort relation needs to be total and transitive. -/
structure IsStrictLinearB {α : Type} (lt : α → α → Bool) : Prop where
  asymm : ∀ a b, lt a b = true → lt b a = false
  lt_trans : ∀ a b c, lt a b = true → lt b c = true → lt a c = true
  conn : ∀ a b, lt a b = false → lt b a = false → a = b

theorem intLtb_strict : IsStrictLinearB intLtb := by
  refine ⟨?_, ?_, ?_⟩ <;> intro a b <;> simp [intLtb] <;> omega

theorem strLtb_asymm : ∀ s t : Str, strLtb s t = true → strLtb t s = false
  | [], [], h => by simp [strLtb] at h
  | [], _ :: _, _ => by simp [strLtb]
  | _ :: _, [], h => by simp [strLtb] at h
  | a :: as, b :: bs, h => by
    simp only [strLtb] at h ⊢
    by_cases hab : a < b
    · simp [hab, lt_asymm hab]
    · by_cases hba : b < a
      · simp [hab, hba] at h
      · simp only [hab, hba, if_false] at h ⊢
        simp [strLtb_asymm as bs h]

theorem strLtb_trans : ∀ s t u : Str, strLtb s t = true → strLtb t u = true → strLtb s u = true
  | [], [], _, h1, _ => by simp [strLtb] at h1
  | [], _ :: _, [], _, h2 => by simp [strLtb] at h2
  | [], _ :: _, _ :: _, _, _ => by simp [strLtb]
  | _ :: _, [], _, h1, _ => by simp [strLtb] at h1
  | _ :: _, _ :: _, [], _, h2 => by simp [strLtb] at h2
  | a :: as, b :: bs, c :: cs, h1, h2 => by
    simp only [strLtb] at h1 h2 ⊢
    by_cases hab : a < b
    · by_cases hbc : b < c
      · simp [lt_trans hab hbc]
      · by_cases hcb : c < b
        · simp [hbc, hcb] at h2
        · have hbceq : b = c := le_antisymm (not_lt.mp hcb) (not_lt.mp hbc)
          subst hbceq
          simp [hab]
    · by_cases hba : b < a
      · simp [hab, hba] at h1
      · have habeq : a = b := le_antisymm (not_lt.mp hba) (not_lt.mp hab)
        subst habeq
        simp only [hab, hba, if_false] at h1
        by_cases hac : a < c
        · simp [hac]
        · by_cases hca : c < a
          · simp [hac, hca] at h2
          · simp only [hac, hca, if_false] at h2 ⊢
            simp [strLtb_trans as bs cs h1 h2]

theorem strLtb_conn : ∀ s t : Str, strLtb s t = false → strLtb t s = false → s = t
  | [], [], _, _ => rfl
  | [], _ :: _, h1, _ => by simp [strLtb] at h1
  | _ :: _, [], _, h2 => by simp [strLtb] at h2
  | a :: as, b :: bs, h1, h2 => by
    simp only [strLtb] at h1 h2
    by_cases hab : a < b
    · simp [hab] at h1
    · by_cases hba : b < a
      · simp [hab, hba] at h2
      · have habeq : a = b := le_antisymm (not_lt.mp hba) (not_lt.mp hab)
        simp only [hab, hba, if_false] at h1 h2
        rw [habeq, strLtb_conn as bs h1 h2]

theorem strLtb_strict : IsStrictLinearB strLtb :=
  ⟨strLtb_asymm, strLtb_trans, strLtb_conn⟩

theorem boolLt_total {α : Type} {lt : α → α → Bool} (h : IsStrictLinearB lt) (a b : α) :
    lt a b = false ∨ lt b a = false := by
  cases hab : lt a b
  · exact Or.inl rfl
  · exact Or.inr (h.asymm a b hab)

theorem boolLt_le_trans {α : Type} {lt : α → α → Bool} (h : IsStrictLinearB lt) (a b c : α)
    (h1 : lt b a = false) (h2 : lt c b = false) : lt c a = false := by
  cases hca : lt c a
  · rfl
  · exfalso
    cases hbc : lt b c
    · have hbceq : b = c := h.conn b c hbc h2
      rw [hbceq] at h1
      rw [hca] at h1
      cases h1
    · have hba : lt b a = true := h.lt_trans b c a hbc hca
      rw [hba] at h1
      cases h1

theorem cmpVals_nonpos {α : Type} {lt : α → α → Bool} (h : IsStrictLinearB lt)
    (a b : α) (ord : SortOrder) :
    (cmpVals lt a b ord ≤ 0 ↔
      (match ord with | .asc => lt b a = false | .desc => lt a b = false)) := by
  cases hab : lt a b
  · cases hba : lt b a
    · cases ord <;> norm_num [cmpVals, hab, hba]
    · cases ord <;> norm_num [cmpVals, hab, hba]
  · have hba := h.asymm a b hab
    cases ord <;> norm_num [cmpVals, hab, hba]

theorem cmpVals_total {α : Type} {lt : α → α → Bool} (h : IsStrictLinearB lt)
    (a b : α) (ord : SortOrder) :
    cmpVals lt a b ord ≤ 0 ∨ cmpVals lt b a ord ≤ 0 := by
  rw [cmpVals_nonpos h, cmpVals_nonpos h]
  cases ord
  · exact boolLt_total h b a
  · exact boolLt_total h a b

theorem cmpVals_le_trans {α : Type} {lt : α → α → Bool} (h : IsStrictLinearB lt)
    (a b c : α) (ord : SortOrder) :
    cmpVals lt a b ord ≤ 0 → cmpVals lt b c ord ≤ 0 → cmpVals lt a c ord ≤ 0 := by
  rw [cmpVals_nonpos h, cmpVals_nonpos h, cmpVals_nonpos h]
  cases ord
  · exact fun h1 h2 => boolLt_le_trans h a b c h1 h2
  · exact fun h1 h2 => boolLt_le_trans h c b a h2 h1

theorem sortRel_total (cfg : SortConfig) (a b : Student) :
    sortRel cfg a b ∨ sortRel cfg b a := by
  unfold sortRel studentCompare
  split_ifs <;>
    first
      | exact cmpVals_total strLtb_strict _ _ _
      | exact cmpVals_total intLtb_strict _ _ _

theorem sortRel_trans (cfg : SortConfig) (a b c : Student) :
    sortRel cfg a b → sortRel cfg b c → sortRel cfg a c := by
  unfold sortRel studentCompare
  split_ifs <;>
    first
      | exact cmpVals_le_trans strLtb_strict _ _ _ _
      | exact cmpVals_le_trans intLtb_strict _ _ _ _

instance sortRelIsTotal (cfg : SortConfig) : IsTotal Student (sortRel cfg) :=
  ⟨sortRel_total cfg⟩

instance sortRelIsTrans (cfg : SortConfig) : IsTrans Student (sortRel cfg) :=
  ⟨sortRel_trans cfg⟩

theorem jsOrInt_zero (x : Int) : jsOrInt x 0 = x := by
  unfold jsOrInt
  split_ifs with h <;> omega

theorem studentCompare_desc_neg_asc (k : Str) (a b : Student) :
    studentCompare ⟨k, .desc⟩ a b = - studentCompare ⟨k, .asc⟩ a b := by
  unfold studentCompare
  dsimp only
  split_ifs <;> (unfold cmpVals; split_ifs <;> norm_num)

theorem sortRel_iff_keyCompare (cfg : SortConfig) (a b : Student) :
    sortRel cfg a b ↔ (match cfg.order with
      | .asc => keyCompare cfg a b ≤ 0
      | .desc => 0 ≤ keyCompare cfg a b) := by
  obtain ⟨k, ord⟩ := cfg
  cases ord
  · exact Iff.rfl
  · show studentCompare ⟨k, .desc⟩ a b ≤ 0 ↔ 0 ≤ studentCompare ⟨k, .asc⟩ a b
    rw [studentCompare_desc_neg_asc]
    exact neg_nonpos

theorem sorted_applyFiltersAndSort (students : List Student) (filters : Filters)
    (cfg : SortConfig) :
    (applyFiltersAndSort students filters cfg).Sorted (sortRel cfg) :=
  List.sorted_insertionSort (sortRel cfg) (filterStudents students filters)

theorem perm_applyFiltersAndSort (students : List Student) (filters : Filters)
    (cfg : SortConfig) :
    (applyFiltersAndSort students filters cfg).Perm (filterStudents students filters) :=
  List.perm_insertionSort (sortRel cfg) (filterStudents students filters)

theorem mem_applyFiltersAndSort {students : List Student} {filters : Filters}
    {cfg : SortConfig} {s : Student} :
    s ∈ applyFiltersAndSort students filters cfg ↔ s ∈ filterStudents students filters :=
  List.mem_insertionSort (sortRel cfg)

theorem mem_filterStudents {students : List Student} {f : Filters} {s : Student} :
    s ∈ filterStudents students f ↔ s ∈ students ∧
      (truthyStr f.classSection = true → s.class_section = f.classSection.getD []) ∧
      (∀ m, f.percentageMin = some m → m ≤ s.latest_percentage) ∧
      (∀ m, f.percentageMax = some m → s.latest_percentage ≤ m) ∧
      (truthyStr f.nameStartsWith = true →
        strStartsWith (strToUpper s.name) (f.nameStartsWith.getD []) = true) ∧
      (truthyStr f.nameEndsWith = true →
        strEndsWith (strToUpper s.name) (f.nameEndsWith.getD []) = true) := by
  obtain ⟨pmin, pmax, nsw, nes, csec⟩ := f
  unfold filterStudents
  cases pmin <;> cases pmax <;>
    rcases hcs : truthyStr csec <;> rcases hsw : truthyStr nsw <;> rcases hes : truthyStr nes <;>
    simp_all [List.mem_filter] <;> tauto

theorem orderedInsert_iff_congr {α : Type} {r s : α → α → Prop}
    [DecidableRel r] [DecidableRel s] (h : ∀ a b, r a b ↔ s a b) (a : α) :
    ∀ l : List α, List.orderedInsert r a l = List.orderedInsert s a l
  | [] => rfl
  | b :: l => by
    by_cases hab : r a b
    · rw [List.orderedInsert, List.orderedInsert, if_pos hab, if_pos ((h a b).mp hab)]
    · rw [List.orderedInsert, List.orderedInsert, if_neg hab,
        if_neg (fun hs => hab ((h a b).mpr hs)), orderedInsert_iff_congr h a l]

theorem insertionSort_iff_congr {α : Type} {r s : α → α → Prop}
    [DecidableRel r] [DecidableRel s] (h : ∀ a b, r a b ↔ s a b) :
    ∀ l : List α, List.insertionSort r l = List.insertionSort s l
  | [] => rfl
  | b :: l => by
    rw [List.insertionSort, List.insertionSort, insertionSort_iff_congr h l,
      orderedInsert_iff_congr h b]

/-- C1: if the remote fetch fails (the query returns an error or throws),
`loadStudents` emits exactly one user-visible error notification, leaves the
previously loaded record set — and hence the derived view — unchanged, and
clears the loading flag, for every prior state. -/
theorem c1_fetch_failure_single_toast (prior : ComponentState) (sections : List Str)
    (e : String) (f : Filters) (cfg : SortConfig) (h : sections ≠ []) :
    (loadStudents prior sections (.error e)).errorToasts = 1 ∧
    (loadStudents prior sections (.error e)).state.students = prior.students ∧
    (loadStudents prior sections (.error e)).state.loading = false ∧
    applyFiltersAndSort (loadStudents prior sections (.error e)).state.students f cfg =
      applyFiltersAndSort prior.students f cfg := by
  have hlen : ¬ sections.length = 0 := fun hl => h (List.length_eq_zero.mp hl)
  unfold loadStudents
  rw [if_neg hlen]
  exact ⟨rfl, rfl, rfl, rfl⟩

theorem c1_fetch_failure_single_toast_witness :
    ([str "10-A"] : List Str) ≠ [] ∧
    ((loadStudents ⟨[bobStudent], true⟩ [str "10-A"] (.error "boom")).errorToasts = 1 ∧
     (loadStudents ⟨[bobStudent], true⟩ [str "10-A"] (.error "boom")).state.students
        = [bobStudent] ∧
     (loadStudents ⟨[bobStudent], true⟩ [str "10-A"] (.error "boom")).state.loading = false ∧
     applyFiltersAndSort
        (loadStudents ⟨[bobStudent], true⟩ [str "10-A"] (.error "boom")).state.students
        {} ⟨str "name", .asc⟩
      = applyFiltersAndSort [bobStudent] {} ⟨str "name", .asc⟩) :=
  ⟨by decide, c1_fetch_failure_single_toast ⟨[bobStudent], true⟩ [str "10-A"] "boom" {}
    ⟨str "name", .asc⟩ (by decide)⟩

theorem applyFiltersAndSort_no_filters (students : List Student) (cfg : SortConfig) :
    applyFiltersAndSort students {} cfg = List.insertionSort (sortRel cfg) students := rfl

/-- C2: when all filter fields are unset, the derived view is a permutation of
the loaded set — it contains every loaded record exactly once and drops
none — for every loaded record set and sort configuration. -/
theorem c2_no_filters_permutation (students : List Student) (cfg : SortConfig) :
    (applyFiltersAndSort students {} cfg).Perm students ∧
    ∀ s : Student, (applyFiltersAndSort students {} cfg).count s = students.count s := by
  have hp : (applyFiltersAndSort students {} cfg).Perm students := by
    rw [applyFiltersAndSort_no_filters]
    exact List.perm_insertionSort _ _
  exact ⟨hp, fun s => hp.count_eq s⟩

/-- C3: the derived view is totally ordered by the active key and direction:
for consecutive elements `a`, `b`, the key's comparator is `≤ 0` when the
direction is ascending and `≥ 0` when descending (name and admission
identifier compare lexicographically on the lower-cased string with a missing
value as the empty string, percentage numerically with a missing value as 0 —
this is `keyCompare`). -/
theorem c3_view_totally_ordered (students : List Student) (f : Filters) (cfg : SortConfig) :
    (cfg.order = .asc →
      (applyFiltersAndSort students f cfg).Chain' (fun a b => keyCompare cfg a b ≤ 0)) ∧
    (cfg.order = .desc →
      (applyFiltersAndSort students f cfg).Chain' (fun a b => 0 ≤ keyCompare cfg a b)) := by
  have hchain : (applyFiltersAndSort students f cfg).Chain' (sortRel cfg) :=
    List.Pairwise.chain' (sorted_applyFiltersAndSort students f cfg)
  constructor
  · intro ho
    refine hchain.imp (fun a b hab => ?_)
    have hk := (sortRel_iff_keyCompare cfg a b).mp hab
    rw [ho] at hk
    exact hk
  · intro ho
    refine hchain.imp (fun a b hab => ?_)
    have hk := (sortRel_iff_keyCompare cfg a b).mp hab
    rw [ho] at hk
    exact hk

theorem c3_view_totally_ordered_witness :
    (⟨str "latest_percentage", .desc⟩ : SortConfig).order = .desc ∧
    (applyFiltersAndSort [aliceStudent, bobStudent] {}
        ⟨str "latest_percentage", .desc⟩).Chain'
      (fun a b => 0 ≤ keyCompare ⟨str "latest_percentage", .desc⟩ a b) :=
  ⟨rfl, (c3_view_totally_ordered [aliceStudent, bobStudent] {}
    ⟨str "latest_percentage", .desc⟩).2 rfl⟩

/-- C4: filtering is conjunctive — a record appears in the derived view only
if it satisfies every specified filter predicate; in particular a set
percentage lower bound `L` forces `L ≤` the percentage and a set upper bound
`U` forces the percentage `≤ U`, both inclusive. -/
theorem c4_filtering_conjunctive (students : List Student) (f : Filters) (cfg : SortConfig)
    (s : Student) (hs : s ∈ applyFiltersAndSort students f cfg) :
    (truthyStr f.classSection = true → s.class_section = f.classSection.getD []) ∧
    (∀ L, f.percentageMin = some L → L ≤ s.latest_percentage) ∧
    (∀ U, f.percentageMax = some U → s.latest_percentage ≤ U) ∧
    (truthyStr f.nameStartsWith = true →
      strStartsWith (strToUpper s.name) (f.nameStartsWith.getD []) = true) ∧
    (truthyStr f.nameEndsWith = true →
      strEndsWith (strToUpper s.name) (f.nameEndsWith.getD []) = true) :=
  (mem_filterStudents.mp (mem_applyFiltersAndSort.mp hs)).2

theorem c4_filtering_conjunctive_witness :
    aliceStudent ∈ applyFiltersAndSort [aliceStudent, bobStudent]
      { percentageMin := some 70, percentageMax := some 95 }
      ⟨str "latest_percentage", .desc⟩ ∧
    ∀ L, ({ percentageMin := some 70, percentageMax := some 95 } : Filters).percentageMin
        = some L → L ≤ aliceStudent.latest_percentage := by
  have hmem : aliceStudent ∈ applyFiltersAndSort [aliceStudent, bobStudent]
      { percentageMin := some 70, percentageMax := some 95 }
      ⟨str "latest_percentage", .desc⟩ := by decide
  exact ⟨hmem, (c4_filtering_conjunctive [aliceStudent, bobStudent]
    { percentageMin := some 70, percentageMax := some 95 }
    ⟨str "latest_percentage", .desc⟩ aliceStudent hmem).2.1⟩

/-- C5: with a non-empty name-affix filter set, a record survives exactly when
its name, uppercased, starts (respectively ends) with the already-uppercased
filter string — case-insensitive in the record's name; and in the
three-student scenario (Alice 92, bob 60, Cara 92) the name-prefix filter
"AL" yields the view `[Alice]` only. -/
theorem c5_name_affix_filters :
    (∀ (students : List Student) (p : Str) (cfg : SortConfig) (s : Student), p ≠ [] →
      (s ∈ applyFiltersAndSort students { nameStartsWith := some p } cfg ↔
        s ∈ students ∧ strStartsWith (strToUpper s.name) p = true)) ∧
    (∀ (students : List Student) (p : Str) (cfg : SortConfig) (s : Student), p ≠ [] →
      (s ∈ applyFiltersAndSort students { nameEndsWith := some p } cfg ↔
        s ∈ students ∧ strEndsWith (strToUpper s.name) p = true)) ∧
    applyFiltersAndSort [aliceStudent, bobStudent, caraStudent]
      { nameStartsWith := some (str "AL") } ⟨str "latest_percentage", .desc⟩
      = [aliceStudent] := by
  refine ⟨?_, ?_, by decide⟩
  · intro students p cfg s hp
    rw [mem_applyFiltersAndSort, mem_filterStudents]
    simp [truthyStr, hp]
  · intro students p cfg s hp
    rw [mem_applyFiltersAndSort, mem_filterStudents]
    simp [truthyStr, hp]

theorem c5_name_affix_filters_witness :
    (str "AL" ≠ ([] : Str)) ∧
    (aliceStudent ∈ applyFiltersAndSort [aliceStudent, bobStudent, caraStudent]
        { nameStartsWith := some (str "AL") } ⟨str "latest_percentage", .desc⟩ ↔
      aliceStudent ∈ [aliceStudent, bobStudent, caraStudent] ∧
        strStartsWith (strToUpper aliceStudent.name) (str "AL") = true) :=
  ⟨by decide, c5_name_affix_filters.1 [aliceStudent, bobStudent, caraStudent] (str "AL")
    ⟨str "latest_percentage", .desc⟩ aliceStudent (by decide)⟩

/-- C6 as stated is false on the code: with an empty class-section list,
`loadStudents` returns before fetching but does not clear the record set, so
a prior state with loaded records keeps them — at the concrete prior state
`⟨[aliceStudent], false⟩` the record set afterwards is not empty. -/
theorem c6_empty_sections_counterexample :
    (loadStudents ⟨[aliceStudent], false⟩ [] (.ok none)).state.students ≠ [] := by
  decide

/-- C6 amended: with an empty class-section identifier list, `loadStudents`
performs no fetch (the result does not depend on the fetch outcome), leaves
the record set unchanged — hence empty on first load — clears the loading
flag, and emits no error notification. -/
theorem c6_empty_sections (prior : ComponentState)
    (fetch : Except String (Option (List RawStudent))) :
    loadStudents prior [] fetch = ⟨⟨prior.students, false⟩, 0⟩ := rfl

theorem sortRel_pct_desc {a b : Student}
    (h : sortRel ⟨str "latest_percentage", .desc⟩ a b) :
    b.latest_percentage ≤ a.latest_percentage := by
  by_cases hab : a.latest_percentage < b.latest_percentage
  · exfalso
    unfold sortRel studentCompare at h
    rw [if_neg (by decide), if_neg (by decide), if_pos rfl] at h
    unfold cmpVals at h
    rw [jsOrInt_zero, jsOrInt_zero] at h
    rw [if_pos (by simp [intLtb, hab])] at h
    dsimp only at h
    omega
  · omega

/-- C7: a fetched latest-percentage value that is absent, null, or zero-falsy
is stored as exactly 0, and under percentage-descending sort such a record
appears after every record whose percentage is greater than 0. -/
theorem c7_zero_percentage_sorts_last :
    (∀ r : RawStudent, r.latest_percentage = none ∨ r.latest_percentage = some 0 →
      (coerceStudent r).latest_percentage = 0) ∧
    (∀ (students : List Student) (f : Filters)
      (i j : Fin (applyFiltersAndSort students f ⟨str "latest_percentage", .desc⟩).length),
      ((applyFiltersAndSort students f
        ⟨str "latest_percentage", .desc⟩).get i).latest_percentage = 0 →
      0 < ((applyFiltersAndSort students f
        ⟨str "latest_percentage", .desc⟩).get j).latest_percentage →
      (j : ℕ) < (i : ℕ)) := by
  constructor
  · intro r hr
    rcases hr with hr | hr <;> simp [coerceStudent, jsOptOrInt, jsOrInt, hr]
  · intro students f i j hpi hpj
    by_contra hji
    push_neg at hji
    rcases lt_or_eq_of_le hji with hlt | heq
    · have hij : i < j := hlt
      have hrel := List.Sorted.rel_get_of_lt
        (sorted_applyFiltersAndSort students f ⟨str "latest_percentage", .desc⟩) hij
      have hle := sortRel_pct_desc hrel
      omega
    · have hij : i = j := Fin.ext heq
      rw [hij] at hpi
      omega

theorem c7_zero_percentage_sorts_last_witness :
    (zeroRaw.latest_percentage = none ∨ zeroRaw.latest_percentage = some 0) ∧
    (coerceStudent zeroRaw).latest_percentage = 0 ∧
    ((applyFiltersAndSort [zedStudent, aliceStudent] {}
      ⟨str "latest_percentage", .desc⟩).get ⟨1, by decide⟩).latest_percentage = 0 ∧
    0 < ((applyFiltersAndSort [zedStudent, aliceStudent] {}
      ⟨str "latest_percentage", .desc⟩).get ⟨0, by decide⟩).latest_percentage ∧
    (0 : ℕ) < (1 : ℕ) :=
  ⟨Or.inl rfl, c7_zero_percentage_sorts_last.1 zeroRaw (Or.inl rfl), by decide, by decide,
    c7_zero_percentage_sorts_last.2 [zedStudent, aliceStudent] {} ⟨1, by decide⟩ ⟨0, by decide⟩
      (by decide) (by decide)⟩

/-- C8: a sort key that is not `name`, `admission_id`, or `latest_percentage`
produces exactly the same derived view as the `latest_percentage` key with
the same direction, for every loaded set and filter set. -/
theorem c8_unrecognized_key (students : List Student) (f : Filters) (key : Str)
    (ord : SortOrder) (h1 : key ≠ str "name") (h2 : key ≠ str "admission_id")
    (h3 : key ≠ str "latest_percentage") :
    applyFiltersAndSort students f ⟨key, ord⟩ =
      applyFiltersAndSort students f ⟨str "latest_percentage", ord⟩ := by
  unfold applyFiltersAndSort
  refine insertionSort_iff_congr (fun a b => ?_) _
  unfold sortRel studentCompare
  dsimp only
  rw [if_neg h1, if_neg h2, if_neg h3, if_neg (by decide), if_neg (by decide), if_pos rfl]

theorem c8_unrecognized_key_witness :
    (str "rank" ≠ str "name" ∧ str "rank" ≠ str "admission_id" ∧
      str "rank" ≠ str "latest_percentage") ∧
    applyFiltersAndSort [aliceStudent, bobStudent] {} ⟨str "rank", .asc⟩ =
      applyFiltersAndSort [aliceStudent, bobStudent] {} ⟨str "latest_percentage", .asc⟩ :=
  ⟨⟨by decide, by decide, by decide⟩,
    c8_unrecognized_key [aliceStudent, bobStudent] {} (str "rank") .asc
      (by decide) (by decide) (by decide)⟩

/-- C9: the performance-tier mapper is total over all numeric percentages and
maps `≥ 90` to "excellent", otherwise `≥ 75` to "good", otherwise `≥ 60` to
"fair", otherwise `≥ 45` to "weak", otherwise "poor", boundaries inclusive at
the lower bound of each tier; the source's colour function realises exactly
this tiering. -/
theorem c9_performance_tier_total (p : Int) :
    getPerformanceColor p = tierColorClass (performanceTier p) ∧
    (performanceTier p = "excellent" ↔ 90 ≤ p) ∧
    (performanceTier p = "good" ↔ 75 ≤ p ∧ p < 90) ∧
    (performanceTier p = "fair" ↔ 60 ≤ p ∧ p < 75) ∧
    (performanceTier p = "weak" ↔ 45 ≤ p ∧ p < 60) ∧
    (performanceTier p = "poor" ↔ p < 45) := by
  unfold getPerformanceColor performanceTier tierColorClass
  by_cases h90 : p ≥ 90 <;> by_cases h75 : p ≥ 75 <;> by_cases h60 : p ≥ 60 <;>
    by_cases h45 : p ≥ 45 <;>
    refine ⟨?_, ?_, ?_, ?_, ?_, ?_⟩ <;>
    simp [ge_iff_le, h90, h75, h60, h45] <;> omega

/-- C10: a percentage bound set to exactly 0 is still applied as a constraint
(presence is an is-defined check), whereas a name-prefix, name-suffix, or
class-section filter set to the empty string behaves as if absent (presence
is a truthiness check). -/
theorem c10_presence_checks :
    (∀ (students : List Student) (f : Filters) (cfg : SortConfig),
      applyFiltersAndSort students { f with nameStartsWith := some [] } cfg =
        applyFiltersAndSort students { f with nameStartsWith := none } cfg) ∧
    (∀ (students : List Student) (f : Filters) (cfg : SortConfig),
      applyFiltersAndSort students { f with nameEndsWith := some [] } cfg =
        applyFiltersAndSort students { f with nameEndsWith := none } cfg) ∧
    (∀ (students : List Student) (f : Filters) (cfg : SortConfig),
      applyFiltersAndSort students { f with classSection := some [] } cfg =
        applyFiltersAndSort students { f with classSection := none } cfg) ∧
    (∀ (students : List Student) (f : Filters) (cfg : SortConfig) (s : Student),
      s ∈ applyFiltersAndSort students { f with percentageMin := some 0 } cfg →
        0 ≤ s.latest_percentage) ∧
    (∀ (students : List Student) (f : Filters) (cfg : SortConfig) (s : Student),
      s ∈ applyFiltersAndSort students { f with percentageMax := some 0 } cfg →
        s.latest_percentage ≤ 0) := by
  refine ⟨?_, ?_, ?_, ?_, ?_⟩
  · intro students f cfg
    unfold applyFiltersAndSort
    obtain ⟨pmin, pmax, nsw, nes, cs⟩ := f
    unfold filterStudents
    simp [truthyStr]
  · intro students f cfg
    unfold applyFiltersAndSort
    obtain ⟨pmin, pmax, nsw, nes, cs⟩ := f
    unfold filterStudents
    simp [truthyStr]
  · intro students f cfg
    unfold applyFiltersAndSort
    obtain ⟨pmin, pmax, nsw, nes, cs⟩ := f
    unfold filterStudents
    simp [truthyStr]
  · intro students f cfg s hs
    exact (mem_filterStudents.mp (mem_applyFiltersAndSort.mp hs)).2.2.1 0 rfl
  · intro students f cfg s hs
    exact (mem_filterStudents.mp (mem_applyFiltersAndSort.mp hs)).2.2.2.1 0 rfl

theorem c10_presence_checks_witness :
    aliceStudent ∈ applyFiltersAndSort [aliceStudent]
      { percentageMin := some 0 } ⟨str "latest_percentage", .desc⟩ ∧
    0 ≤ aliceStudent.latest_percentage := by
  have hmem : aliceStudent ∈ applyFiltersAndSort [aliceStudent]
      { percentageMin := some 0 } ⟨str "latest_percentage", .desc⟩ := by decide
  exact ⟨hmem, c10_presence_checks.2.2.2.1 [aliceStudent] {}
    ⟨str "latest_percentage", .desc⟩ aliceStudent hmem⟩
